import Mathlib

/-!
Shallow embedding of the PCM-to-WAV encoder of `src/components/TextToSpeech.tsx`
(the `AudioContainerEncoder` of the specification), together with proofs of the
specified properties.

Bytes are modelled as natural numbers reduced modulo 256 at every store, a
JavaScript `ArrayBuffer` as a `List Nat`, a `Uint8Array` as a view (backing
buffer, byte offset, length), and each `DataView` write as a bounds-checked
operation that returns `Except.error "RangeError"` outside the buffer, as the
corresponding JavaScript method throws.  `encodeWAV` returns the byte contents
of the produced `audio/wav` blob.
-/

namespace AIMultiTools

/-- Contents of a JavaScript `ArrayBuffer`: a list of byte values. -/
abbrev Buffer := List Nat

/-- Model of `new ArrayBuffer(n)`: `n` zero bytes. -/
def newArrayBuffer (n : Nat) : Buffer := List.replicate n 0

/-- Model of `DataView.prototype.setUint8`: the value is converted to an
unsigned 8-bit integer and stored at `off`; an offset outside the buffer
raises a `RangeError`. -/
def setUint8 (buf : Buffer) (off v : Nat) : Except String Buffer :=
  if off < buf.length then .ok (buf.set off (v % 256)) else .error "RangeError"

/-- Model of `DataView.prototype.setUint16` with `littleEndian = true`: the
value is converted to an unsigned 16-bit integer and stored low byte first;
a write extending past the end of the buffer raises a `RangeError`. -/
def setUint16LE (buf : Buffer) (off v : Nat) : Except String Buffer :=
  if off + 2 ≤ buf.length then
    .ok ((buf.set off (v % 65536 % 256)).set (off + 1) (v % 65536 / 256))
  else .error "RangeError"

/-- Model of `DataView.prototype.setUint32` with `littleEndian = true`: the
value is converted to an unsigned 32-bit integer and stored low byte first;
a write extending past the end of the buffer raises a `RangeError`. -/
def setUint32LE (buf : Buffer) (off v : Nat) : Except String Buffer :=
  if off + 4 ≤ buf.length then
    .ok ((((buf.set off (v % 4294967296 % 256)).set
      (off + 1) (v % 4294967296 / 256 % 256)).set
      (off + 2) (v % 4294967296 / 65536 % 256)).set
      (off + 3) (v % 4294967296 / 16777216))
  else .error "RangeError"

/-- Sequential `setUint8` writes of a list of values at consecutive offsets:
the common shape of the loop in `writeString` and of the PCM copy loop of
`encodeWAV` (`for i: view.setUint8(off + i, bytes[i])`). -/
def writeLoop (buf : Buffer) (off : Nat) : List Nat → Except String Buffer
  | [] => .ok buf
  | b :: bs => (setUint8 buf off b).bind fun buf => writeLoop buf (off + 1) bs

/-- Model of `writeString` from `TextToSpeech.tsx`: write the character codes
of `s` at consecutive offsets starting at `off`. -/
def writeString (buf : Buffer) (off : Nat) (s : String) : Except String Buffer :=
  writeLoop buf off (s.data.map Char.toNat)

/-- Model of a JavaScript `Uint8Array`: a window of `length` bytes into a
backing `ArrayBuffer`, starting at `byteOffset`. -/
structure Uint8Array where
  buffer : Buffer
  byteOffset : Nat
  length : Nat

/-- Bytes visible through a `Uint8Array` view. -/
def Uint8Array.toBytes (a : Uint8Array) : Buffer :=
  (a.buffer.drop a.byteOffset).take a.length

/-- Model of `new Uint8Array(n)` filled with the bytes `bs` (the shape of
every array produced by `decode` in `TextToSpeech.tsx`): a view of the whole
backing buffer, with byte offset 0. -/
def Uint8Array.ofBytes (bs : Buffer) : Uint8Array := ⟨bs, 0, bs.length⟩

/-- Model of `encodeWAV` from `TextToSpeech.tsx`, returning the bytes of the
produced `audio/wav` blob, or the `RangeError` thrown by an out-of-range
`DataView` write.  The PCM copy loop reads `new Uint8Array(samples.buffer)`,
that is, the whole backing buffer of the `samples` view. -/
def encodeWAV (samples : Uint8Array) (sampleRate numChannels : Nat) :
    Except String Buffer :=
  let bitsPerSample := 16
  let buffer := newArrayBuffer (44 + samples.length)
  let blockAlign := numChannels * bitsPerSample / 8
  let byteRate := sampleRate * blockAlign
  (writeString buffer 0 "RIFF").bind fun view =>
  (setUint32LE view 4 (36 + samples.length)).bind fun view =>
  (writeString view 8 "WAVE").bind fun view =>
  (writeString view 12 "fmt ").bind fun view =>
  (setUint32LE view 16 16).bind fun view =>
  (setUint16LE view 20 1).bind fun view =>
  (setUint16LE view 22 numChannels).bind fun view =>
  (setUint32LE view 24 sampleRate).bind fun view =>
  (setUint32LE view 28 byteRate).bind fun view =>
  (setUint16LE view 32 blockAlign).bind fun view =>
  (setUint16LE view 34 bitsPerSample).bind fun view =>
  (writeString view 36 "data").bind fun view =>
  (setUint32LE view 40 samples.length).bind fun view =>
  writeLoop view 44 samples.buffer

/-- Little-endian bytes stored by `setUint16LE`. -/
def leBytes16 (v : Nat) : Buffer := [v % 65536 % 256, v % 65536 / 256]

/-- Little-endian bytes stored by `setUint32LE`. -/
def leBytes32 (v : Nat) : Buffer :=
  [v % 4294967296 % 256, v % 4294967296 / 256 % 256,
   v % 4294967296 / 65536 % 256, v % 4294967296 / 16777216]

/-- The 44 header bytes that `encodeWAV` lays down in front of the payload,
as a function of the payload length and the format parameters. -/
def wavHeader (n sampleRate numChannels : Nat) : Buffer :=
  let blockAlign := numChannels * 16 / 8
  let byteRate := sampleRate * blockAlign
  [82, 73, 70, 70] ++ leBytes32 (36 + n) ++ [87, 65, 86, 69] ++
  [102, 109, 116, 32] ++ leBytes32 16 ++ leBytes16 1 ++
  leBytes16 numChannels ++ leBytes32 sampleRate ++ leBytes32 byteRate ++
  leBytes16 blockAlign ++ leBytes16 16 ++ [100, 97, 116, 97] ++ leBytes32 n

/-- Little-endian decoding of the two bytes at `off`, as a standard WAVE
parser reads a `uint16` field. -/
def readUint16LE (out : Buffer) (off : Nat) : Nat :=
  out.getD off 0 + 256 * out.getD (off + 1) 0

/-- Little-endian decoding of the four bytes at `off`, as a standard WAVE
parser reads a `uint32` field. -/
def readUint32LE (out : Buffer) (off : Nat) : Nat :=
  out.getD off 0 + 256 * out.getD (off + 1) 0 + 65536 * out.getD (off + 2) 0 +
    16777216 * out.getD (off + 3) 0

/-- ASCII character codes of a marker string, as laid down by `writeString`. -/
def asciiCodes (s : String) : List Nat := s.data.map Char.toNat

@[simp] lemma leBytes16_length (v : Nat) : (leBytes16 v).length = 2 := rfl

@[simp] lemma leBytes32_length (v : Nat) : (leBytes32 v).length = 4 := rfl

@[simp] lemma wavHeader_length (n sr nc : Nat) : (wavHeader n sr nc).length = 44 := by
  simp [wavHeader]

lemma bind_ok {α β : Type} (a : α) (f : α → Except String β) :
    (Except.ok a).bind f = f a := rfl

lemma set_append_cons (pre : Buffer) (b : Nat) (rest : Buffer) (v off : Nat)
    (h : pre.length = off) : (pre ++ b :: rest).set off v = pre ++ v :: rest := by
  subst h
  rw [List.set_append_right _ _ (Nat.le_refl _), Nat.sub_self]
  rfl

lemma writeLoop_at (bs : List Nat) (pre rest : Buffer) (off : Nat)
    (h : pre.length = off) (hr : bs.length ≤ rest.length) :
    writeLoop (pre ++ rest) off bs =
      .ok ((pre ++ bs.map fun v => v % 256) ++ rest.drop bs.length) := by
  induction bs generalizing pre rest off with
  | nil => simp [writeLoop]
  | cons b bs ih =>
    match rest with
    | [] => simp at hr
    | r :: rest =>
      have hlt : off < (pre ++ r :: rest).length := by
        simp only [List.length_append, List.length_cons]; omega
      simp only [writeLoop, setUint8, if_pos hlt,
        set_append_cons pre r rest (b % 256) off h, bind_ok]
      have h2 : (pre ++ [b % 256]).length = off + 1 := by simp [h]
      have hr2 : bs.length ≤ rest.length := by simpa using hr
      calc writeLoop (pre ++ b % 256 :: rest) (off + 1) bs
          = writeLoop ((pre ++ [b % 256]) ++ rest) (off + 1) bs := by simp
        _ = .ok (((pre ++ [b % 256]) ++ bs.map fun v => v % 256) ++ rest.drop bs.length) :=
            ih (pre ++ [b % 256]) rest (off + 1) h2 hr2
        _ = .ok ((pre ++ (b :: bs).map fun v => v % 256) ++
              (r :: rest).drop (b :: bs).length) := by simp

lemma writeLoop_oob (bs : List Nat) (pre rest : Buffer) (off : Nat)
    (h : pre.length = off) (hr : rest.length < bs.length) :
    writeLoop (pre ++ rest) off bs = .error "RangeError" := by
  induction bs generalizing pre rest off with
  | nil => simp at hr
  | cons b bs ih =>
    match rest with
    | [] =>
      have hge : ¬ off < (pre ++ ([] : Buffer)).length := by simp [h]
      simp only [writeLoop, setUint8, if_neg hge]
      rfl
    | r :: rest =>
      have hlt : off < (pre ++ r :: rest).length := by
        simp only [List.length_append, List.length_cons]; omega
      simp only [writeLoop, setUint8, if_pos hlt,
        set_append_cons pre r rest (b % 256) off h, bind_ok]
      have hr2 : rest.length < bs.length := by simpa using hr
      have := ih (pre ++ [b % 256]) rest (off + 1) (by simp [h]) hr2
      simpa using this

lemma setUint16LE_at (pre rest : Buffer) (v off : Nat)
    (h : pre.length = off) (hr : 2 ≤ rest.length) :
    setUint16LE (pre ++ rest) off v = .ok ((pre ++ leBytes16 v) ++ rest.drop 2) := by
  match rest, hr with
  | r1 :: r2 :: rest, _ =>
    have hb : off + 2 ≤ (pre ++ r1 :: r2 :: rest).length := by
      simp only [List.length_append, List.length_cons]; omega
    have e1 : (pre ++ r1 :: r2 :: rest).set off (v % 65536 % 256)
        = (pre ++ [v % 65536 % 256]) ++ r2 :: rest := by
      rw [set_append_cons pre r1 _ _ off h]; simp
    have e2 : ((pre ++ [v % 65536 % 256]) ++ r2 :: rest).set (off + 1) (v % 65536 / 256)
        = (pre ++ [v % 65536 % 256, v % 65536 / 256]) ++ rest := by
      rw [set_append_cons _ r2 _ _ (off + 1) (by simp [h])]; simp
    have hd : (r1 :: r2 :: rest).drop 2 = rest := rfl
    rw [setUint16LE, if_pos hb, e1, e2, hd]
    simp [leBytes16]

lemma setUint32LE_at (pre rest : Buffer) (v off : Nat)
    (h : pre.length = off) (hr : 4 ≤ rest.length) :
    setUint32LE (pre ++ rest) off v = .ok ((pre ++ leBytes32 v) ++ rest.drop 4) := by
  match rest, hr with
  | r1 :: r2 :: r3 :: r4 :: rest, _ =>
    have hb : off + 4 ≤ (pre ++ r1 :: r2 :: r3 :: r4 :: rest).length := by
      simp only [List.length_append, List.length_cons]; omega
    have e1 : (pre ++ r1 :: r2 :: r3 :: r4 :: rest).set off (v % 4294967296 % 256)
        = (pre ++ [v % 4294967296 % 256]) ++ r2 :: r3 :: r4 :: rest := by
      rw [set_append_cons pre r1 _ _ off h]; simp
    have e2 : ((pre ++ [v % 4294967296 % 256]) ++ r2 :: r3 :: r4 :: rest).set (off + 1)
          (v % 4294967296 / 256 % 256)
        = (pre ++ [v % 4294967296 % 256, v % 4294967296 / 256 % 256]) ++ r3 :: r4 :: rest := by
      rw [set_append_cons _ r2 _ _ (off + 1) (by simp [h])]; simp
    have e3 : ((pre ++ [v % 4294967296 % 256, v % 4294967296 / 256 % 256]) ++
            r3 :: r4 :: rest).set (off + 2) (v % 4294967296 / 65536 % 256)
        = (pre ++ [v % 4294967296 % 256, v % 4294967296 / 256 % 256,
            v % 4294967296 / 65536 % 256]) ++ r4 :: rest := by
      rw [set_append_cons _ r3 _ _ (off + 2) (by simp [h])]; simp
    have e4 : ((pre ++ [v % 4294967296 % 256, v % 4294967296 / 256 % 256,
            v % 4294967296 / 65536 % 256]) ++ r4 :: rest).set (off + 3)
          (v % 4294967296 / 16777216)
        = (pre ++ [v % 4294967296 % 256, v % 4294967296 / 256 % 256,
            v % 4294967296 / 65536 % 256, v % 4294967296 / 16777216]) ++ rest := by
      rw [set_append_cons _ r4 _ _ (off + 3) (by simp [h])]; simp
    have hd : (r1 :: r2 :: r3 :: r4 :: rest).drop 4 = rest := rfl
    rw [setUint32LE, if_pos hb, e1, e2, e3, e4, hd]
    simp [leBytes32]

lemma drop_rep_append (k m : Nat) (X : Buffer) (h : k ≤ m) :
    (List.replicate m (0 : Nat) ++ X).drop k = List.replicate (m - k) 0 ++ X := by
  rw [List.drop_append_of_le_length (by simpa using h), List.drop_replicate]


lemma map_mod_eq_self (bs : Buffer) (hb : ∀ b ∈ bs, b < 256) :
    (bs.map fun v => v % 256) = bs := by
  induction bs with
  | nil => rfl
  | cons b bs ih =>
    simp only [List.map_cons]
    rw [Nat.mod_eq_of_lt (hb b (by simp)), ih fun x hx => hb x (by simp [hx])]

lemma cc_RIFF : ['R', 'I', 'F', 'F'].map Char.toNat = [82, 73, 70, 70] := by decide

lemma cc_WAVE : ['W', 'A', 'V', 'E'].map Char.toNat = [87, 65, 86, 69] := by decide

lemma cc_fmt : ['f', 'm', 't', ' '].map Char.toNat = [102, 109, 116, 32] := by decide

lemma cc_data : ['d', 'a', 't', 'a'].map Char.toNat = [100, 97, 116, 97] := by decide

lemma writeMarker4_at (b1 b2 b3 b4 : Nat) (pre rest : Buffer) (off : Nat)
    (h : pre.length = off) (hr : 4 ≤ rest.length)
    (hb : b1 < 256 ∧ b2 < 256 ∧ b3 < 256 ∧ b4 < 256) :
    writeLoop (pre ++ rest) off [b1, b2, b3, b4] =
      .ok ((pre ++ [b1, b2, b3, b4]) ++ rest.drop 4) := by
  have := writeLoop_at [b1, b2, b3, b4] pre rest off h (by simpa using hr)
  simpa [Nat.mod_eq_of_lt hb.1, Nat.mod_eq_of_lt hb.2.1, Nat.mod_eq_of_lt hb.2.2.1,
    Nat.mod_eq_of_lt hb.2.2.2] using this

lemma writeMarker4_at0 (b1 b2 b3 b4 : Nat) (rest : Buffer) (hr : 4 ≤ rest.length)
    (hb : b1 < 256 ∧ b2 < 256 ∧ b3 < 256 ∧ b4 < 256) :
    writeLoop rest 0 [b1, b2, b3, b4] = .ok ([b1, b2, b3, b4] ++ rest.drop 4) := by
  have := writeMarker4_at b1 b2 b3 b4 [] rest 0 rfl hr hb
  simpa using this

theorem encodeWAV_eq (samples : Uint8Array) (sr nc : Nat) :
    encodeWAV samples sr nc =
      writeLoop (wavHeader samples.length sr nc ++ List.replicate samples.length 0)
        44 samples.buffer := by
  simp only [encodeWAV, writeString, newArrayBuffer, List.replicate_add,
    cc_RIFF, cc_WAVE, cc_fmt, cc_data]
  rw [writeMarker4_at0 82 73 70 70 _
    (by simp only [List.length_append, List.length_replicate]; omega) (by decide)]
  rw [drop_rep_append 4 44 _ (by omega)]
  simp only [bind_ok]
  rw [setUint32LE_at _ _ (36 + samples.length) 4 (by simp)
    (by simp only [List.length_append, List.length_replicate]; omega)]
  rw [drop_rep_append 4 (44 - 4) _ (by omega)]
  simp only [bind_ok]
  rw [writeMarker4_at 87 65 86 69 _ _ 8 (by simp)
    (by simp only [List.length_append, List.length_replicate]; omega) (by decide)]
  rw [drop_rep_append 4 (44 - 4 - 4) _ (by omega)]
  simp only [bind_ok]
  rw [writeMarker4_at 102 109 116 32 _ _ 12 (by simp)
    (by simp only [List.length_append, List.length_replicate]; omega) (by decide)]
  rw [drop_rep_append 4 (44 - 4 - 4 - 4) _ (by omega)]
  simp only [bind_ok]
  rw [setUint32LE_at _ _ 16 16 (by simp)
    (by simp only [List.length_append, List.length_replicate]; omega)]
  rw [drop_rep_append 4 (44 - 4 - 4 - 4 - 4) _ (by omega)]
  simp only [bind_ok]
  rw [setUint16LE_at _ _ 1 20 (by simp)
    (by simp only [List.length_append, List.length_replicate]; omega)]
  rw [drop_rep_append 2 (44 - 4 - 4 - 4 - 4 - 4) _ (by omega)]
  simp only [bind_ok]
  rw [setUint16LE_at _ _ nc 22 (by simp)
    (by simp only [List.length_append, List.length_replicate]; omega)]
  rw [drop_rep_append 2 (44 - 4 - 4 - 4 - 4 - 4 - 2) _ (by omega)]
  simp only [bind_ok]
  rw [setUint32LE_at _ _ sr 24 (by simp)
    (by simp only [List.length_append, List.length_replicate]; omega)]
  rw [drop_rep_append 4 (44 - 4 - 4 - 4 - 4 - 4 - 2 - 2) _ (by omega)]
  simp only [bind_ok]
  rw [setUint32LE_at _ _ (sr * (nc * 16 / 8)) 28 (by simp)
    (by simp only [List.length_append, List.length_replicate]; omega)]
  rw [drop_rep_append 4 (44 - 4 - 4 - 4 - 4 - 4 - 2 - 2 - 4) _ (by omega)]
  simp only [bind_ok]
  rw [setUint16LE_at _ _ (nc * 16 / 8) 32 (by simp)
    (by simp only [List.length_append, List.length_replicate]; omega)]
  rw [drop_rep_append 2 (44 - 4 - 4 - 4 - 4 - 4 - 2 - 2 - 4 - 4) _ (by omega)]
  simp only [bind_ok]
  rw [setUint16LE_at _ _ 16 34 (by simp)
    (by simp only [List.length_append, List.length_replicate]; omega)]
  rw [drop_rep_append 2 (44 - 4 - 4 - 4 - 4 - 4 - 2 - 2 - 4 - 4 - 2) _ (by omega)]
  simp only [bind_ok]
  rw [writeMarker4_at 100 97 116 97 _ _ 36 (by simp)
    (by simp only [List.length_append, List.length_replicate]; omega) (by decide)]
  rw [drop_rep_append 4 (44 - 4 - 4 - 4 - 4 - 4 - 2 - 2 - 4 - 4 - 2 - 2) _ (by omega)]
  simp only [bind_ok]
  rw [setUint32LE_at _ _ samples.length 40 (by simp)
    (by simp only [List.length_append, List.length_replicate]; omega)]
  rw [drop_rep_append 4 (44 - 4 - 4 - 4 - 4 - 4 - 2 - 2 - 4 - 4 - 2 - 2 - 4) _ (by omega)]
  simp only [bind_ok]
  simp [wavHeader, leBytes16, leBytes32, List.append_assoc]

theorem encodeWAV_ofBytes (bs : Buffer) (sr nc : Nat) :
    encodeWAV (Uint8Array.ofBytes bs) sr nc =
      .ok (wavHeader bs.length sr nc ++ bs.map fun v => v % 256) := by
  rw [encodeWAV_eq]
  show writeLoop (wavHeader bs.length sr nc ++ List.replicate bs.length 0) 44 bs = _
  rw [writeLoop_at bs (wavHeader bs.length sr nc) (List.replicate bs.length 0) 44
    (wavHeader_length bs.length sr nc) (by simp)]
  simp


lemma wavHeader_flat (n sr nc : Nat) :
    wavHeader n sr nc =
      [82, 73, 70, 70,
       (36 + n) % 4294967296 % 256, (36 + n) % 4294967296 / 256 % 256,
       (36 + n) % 4294967296 / 65536 % 256, (36 + n) % 4294967296 / 16777216,
       87, 65, 86, 69, 102, 109, 116, 32, 16, 0, 0, 0, 1, 0,
       nc % 65536 % 256, nc % 65536 / 256,
       sr % 4294967296 % 256, sr % 4294967296 / 256 % 256,
       sr % 4294967296 / 65536 % 256, sr % 4294967296 / 16777216,
       sr * (nc * 16 / 8) % 4294967296 % 256, sr * (nc * 16 / 8) % 4294967296 / 256 % 256,
       sr * (nc * 16 / 8) % 4294967296 / 65536 % 256, sr * (nc * 16 / 8) % 4294967296 / 16777216,
       (nc * 16 / 8) % 65536 % 256, (nc * 16 / 8) % 65536 / 256,
       16, 0, 100, 97, 116, 97,
       n % 4294967296 % 256, n % 4294967296 / 256 % 256,
       n % 4294967296 / 65536 % 256, n % 4294967296 / 16777216] := by
  simp [wavHeader, leBytes16, leBytes32]

lemma readUint32LE_append (out X : Buffer) (off : Nat) (h : off + 3 < out.length) :
    readUint32LE (out ++ X) off = readUint32LE out off := by
  unfold readUint32LE
  rw [List.getD_append _ _ _ _ (by omega), List.getD_append _ _ _ _ (by omega),
    List.getD_append _ _ _ _ (by omega), List.getD_append _ _ _ _ (by omega)]

lemma readUint16LE_append (out X : Buffer) (off : Nat) (h : off + 1 < out.length) :
    readUint16LE (out ++ X) off = readUint16LE out off := by
  unfold readUint16LE
  rw [List.getD_append _ _ _ _ (by omega), List.getD_append _ _ _ _ (by omega)]

lemma read32_chunkSize (n sr nc : Nat) (X : Buffer) :
    readUint32LE (wavHeader n sr nc ++ X) 4 = (36 + n) % 4294967296 := by
  rw [readUint32LE_append _ _ _ (by simp), wavHeader_flat]
  simp [readUint32LE]
  omega

lemma read32_subchunk1Size (n sr nc : Nat) (X : Buffer) :
    readUint32LE (wavHeader n sr nc ++ X) 16 = 16 := by
  rw [readUint32LE_append _ _ _ (by simp), wavHeader_flat]
  simp [readUint32LE]

lemma read16_audioFormat (n sr nc : Nat) (X : Buffer) :
    readUint16LE (wavHeader n sr nc ++ X) 20 = 1 := by
  rw [readUint16LE_append _ _ _ (by simp), wavHeader_flat]
  simp [readUint16LE]

lemma read16_numChannels (n sr nc : Nat) (X : Buffer) :
    readUint16LE (wavHeader n sr nc ++ X) 22 = nc % 65536 := by
  rw [readUint16LE_append _ _ _ (by simp), wavHeader_flat]
  simp [readUint16LE]
  omega

lemma read32_sampleRate (n sr nc : Nat) (X : Buffer) :
    readUint32LE (wavHeader n sr nc ++ X) 24 = sr % 4294967296 := by
  rw [readUint32LE_append _ _ _ (by simp), wavHeader_flat]
  simp [readUint32LE]
  omega

lemma read32_byteRate (n sr nc : Nat) (X : Buffer) :
    readUint32LE (wavHeader n sr nc ++ X) 28 = sr * nc * 2 % 4294967296 := by
  rw [readUint32LE_append _ _ _ (by simp), wavHeader_flat]
  have hba : nc * 16 / 8 = nc * 2 := by omega
  have hmul : sr * (nc * 2) = sr * nc * 2 := by ring
  rw [hba, hmul]
  simp [readUint32LE]
  generalize sr * nc * 2 = v
  omega

lemma read16_blockAlign (n sr nc : Nat) (X : Buffer) :
    readUint16LE (wavHeader n sr nc ++ X) 32 = nc * 2 % 65536 := by
  rw [readUint16LE_append _ _ _ (by simp), wavHeader_flat]
  have hba : nc * 16 / 8 = nc * 2 := by omega
  rw [hba]
  simp [readUint16LE]
  omega

lemma read16_bitsPerSample (n sr nc : Nat) (X : Buffer) :
    readUint16LE (wavHeader n sr nc ++ X) 34 = 16 := by
  rw [readUint16LE_append _ _ _ (by simp), wavHeader_flat]
  simp [readUint16LE]

lemma read32_dataSize (n sr nc : Nat) (X : Buffer) :
    readUint32LE (wavHeader n sr nc ++ X) 40 = n % 4294967296 := by
  rw [readUint32LE_append _ _ _ (by simp), wavHeader_flat]
  simp [readUint32LE]
  omega

lemma drop44_payload (n sr nc : Nat) (X : Buffer) :
    (wavHeader n sr nc ++ X).drop 44 = X :=
  List.drop_left' (wavHeader_length n sr nc)

lemma take_marker_0 (n sr nc : Nat) (X : Buffer) :
    (wavHeader n sr nc ++ X).take 4 = [82, 73, 70, 70] := by
  rw [wavHeader_flat]; simp

lemma take_marker_8 (n sr nc : Nat) (X : Buffer) :
    ((wavHeader n sr nc ++ X).drop 8).take 4 = [87, 65, 86, 69] := by
  rw [wavHeader_flat]; simp

lemma take_marker_12 (n sr nc : Nat) (X : Buffer) :
    ((wavHeader n sr nc ++ X).drop 12).take 4 = [102, 109, 116, 32] := by
  rw [wavHeader_flat]; simp

lemma take_marker_36 (n sr nc : Nat) (X : Buffer) :
    ((wavHeader n sr nc ++ X).drop 36).take 4 = [100, 97, 116, 97] := by
  rw [wavHeader_flat]; simp


/-- C1: for every byte sequence `samples` and valid positive integers
`sampleRate` and `numChannels`, the byte sequence produced by
`encodeWAV samples sampleRate numChannels` has length exactly
`44 + samples.length`. -/
theorem C1_output_length (samples : Buffer) (sampleRate numChannels : Nat)
    (hsr : 0 < sampleRate) (hnc : 0 < numChannels) :
    ∃ out, encodeWAV (Uint8Array.ofBytes samples) sampleRate numChannels = .ok out ∧
      out.length = 44 + samples.length := by
  refine ⟨_, encodeWAV_ofBytes samples sampleRate numChannels, ?_⟩
  simp

theorem C1_output_length_witness :
    0 < 24000 ∧ 0 < 1 ∧
    ∃ out, encodeWAV (Uint8Array.ofBytes [0, 1, 2, 3]) 24000 1 = .ok out ∧
      out.length = 44 + [0, 1, 2, 3].length :=
  ⟨by decide, by decide, C1_output_length [0, 1, 2, 3] 24000 1 (by decide) (by decide)⟩

/-- C2: for inputs within the field widths of the header layout (sampleRate a
uint32, numChannels a uint16, chunk size a uint32), the output of `encodeWAV`
carries the fixed and computed header fields of the byte layout, all
multi-byte integers little-endian: bytes 4-7 hold `36 + samples.length`,
bytes 16-19 hold 16, bytes 20-21 hold 1, bytes 22-23 hold `numChannels`,
bytes 24-27 hold `sampleRate`, bytes 34-35 hold 16, and bytes 40-43 hold
`samples.length`. -/
theorem C2_header_field_values (samples : Buffer) (sampleRate numChannels : Nat)
    (hsr : sampleRate < 4294967296) (hnc : numChannels < 65536)
    (hn : 36 + samples.length < 4294967296) :
    ∃ out, encodeWAV (Uint8Array.ofBytes samples) sampleRate numChannels = .ok out ∧
      readUint32LE out 4 = 36 + samples.length ∧
      readUint32LE out 16 = 16 ∧
      readUint16LE out 20 = 1 ∧
      readUint16LE out 22 = numChannels ∧
      readUint32LE out 24 = sampleRate ∧
      readUint16LE out 34 = 16 ∧
      readUint32LE out 40 = samples.length := by
  refine ⟨_, encodeWAV_ofBytes samples sampleRate numChannels,
    ?_, read32_subchunk1Size _ _ _ _, read16_audioFormat _ _ _ _, ?_, ?_,
    read16_bitsPerSample _ _ _ _, ?_⟩
  · rw [read32_chunkSize]; omega
  · rw [read16_numChannels]; omega
  · rw [read32_sampleRate]; omega
  · rw [read32_dataSize]; omega

theorem C2_header_field_values_witness :
    ∃ out, encodeWAV (Uint8Array.ofBytes [10, 20]) 24000 1 = .ok out ∧
      readUint32LE out 4 = 36 + [10, 20].length ∧
      readUint32LE out 16 = 16 ∧
      readUint16LE out 20 = 1 ∧
      readUint16LE out 22 = 1 ∧
      readUint32LE out 24 = 24000 ∧
      readUint16LE out 34 = 16 ∧
      readUint32LE out 40 = [10, 20].length :=
  C2_header_field_values [10, 20] 24000 1 (by decide) (by decide) (by decide)

/-- C3: parsing the bytes produced by `encodeWAV` as a canonical
44-byte-header RIFF/WAVE PCM file recovers `sampleRate`, `numChannels`,
bits-per-sample 16, and a data payload (bytes 44 onward) byte-for-byte
identical to the original `samples` input. -/
theorem C3_roundtrip (samples : Buffer) (sampleRate numChannels : Nat)
    (hb : ∀ b ∈ samples, b < 256)
    (hsr : sampleRate < 4294967296) (hnc : numChannels < 65536) :
    ∃ out, encodeWAV (Uint8Array.ofBytes samples) sampleRate numChannels = .ok out ∧
      readUint32LE out 24 = sampleRate ∧
      readUint16LE out 22 = numChannels ∧
      readUint16LE out 34 = 16 ∧
      out.drop 44 = samples := by
  refine ⟨_, encodeWAV_ofBytes samples sampleRate numChannels,
    ?_, ?_, read16_bitsPerSample _ _ _ _, ?_⟩
  · rw [read32_sampleRate]; omega
  · rw [read16_numChannels]; omega
  · rw [drop44_payload, map_mod_eq_self samples hb]

theorem C3_roundtrip_witness :
    ∃ out, encodeWAV (Uint8Array.ofBytes [0, 1, 2, 3]) 24000 1 = .ok out ∧
      readUint32LE out 24 = 24000 ∧
      readUint16LE out 22 = 1 ∧
      readUint16LE out 34 = 16 ∧
      out.drop 44 = [0, 1, 2, 3] :=
  C3_roundtrip [0, 1, 2, 3] 24000 1 (by decide) (by decide) (by decide)

/-- C4: for every invocation of `encodeWAV`, output bytes 0-3 are the ASCII
string "RIFF", bytes 8-11 are "WAVE", bytes 12-15 are "fmt " (with trailing
space), and bytes 36-39 are "data". -/
theorem C4_format_markers (samples : Buffer) (sampleRate numChannels : Nat) :
    ∃ out, encodeWAV (Uint8Array.ofBytes samples) sampleRate numChannels = .ok out ∧
      out.take 4 = asciiCodes "RIFF" ∧
      (out.drop 8).take 4 = asciiCodes "WAVE" ∧
      (out.drop 12).take 4 = asciiCodes "fmt " ∧
      (out.drop 36).take 4 = asciiCodes "data" := by
  refine ⟨_, encodeWAV_ofBytes samples sampleRate numChannels, ?_, ?_, ?_, ?_⟩
  · rw [take_marker_0]; decide
  · rw [take_marker_8]; decide
  · rw [take_marker_12]; decide
  · rw [take_marker_36]; decide

/-- C5: for every invocation of `encodeWAV` whose computed fields fit their
widths, the ByteRate field (bytes 28-31, little-endian uint32) equals
`sampleRate * numChannels * 2`, and the BlockAlign field (bytes 32-33,
little-endian uint16) equals `numChannels * 2`. -/
theorem C5_byteRate_blockAlign (samples : Buffer) (sampleRate numChannels : Nat)
    (hbr : sampleRate * numChannels * 2 < 4294967296)
    (hba : numChannels * 2 < 65536) :
    ∃ out, encodeWAV (Uint8Array.ofBytes samples) sampleRate numChannels = .ok out ∧
      readUint32LE out 28 = sampleRate * numChannels * 2 ∧
      readUint16LE out 32 = numChannels * 2 := by
  refine ⟨_, encodeWAV_ofBytes samples sampleRate numChannels, ?_, ?_⟩
  · rw [read32_byteRate]; exact Nat.mod_eq_of_lt hbr
  · rw [read16_blockAlign]; exact Nat.mod_eq_of_lt hba

theorem C5_byteRate_blockAlign_witness :
    ∃ out, encodeWAV (Uint8Array.ofBytes [5, 6]) 24000 2 = .ok out ∧
      readUint32LE out 28 = 24000 * 2 * 2 ∧
      readUint16LE out 32 = 2 * 2 :=
  C5_byteRate_blockAlign [5, 6] 24000 2 (by decide) (by decide)

/-- C6: `encodeWAV` is total on byte sequences with valid positive rate and
channel count: it returns a result without failing.  In this embedding it is
a pure function: the only effect modelled is the output buffer it returns. -/
theorem C6_total (samples : Buffer) (sampleRate numChannels : Nat)
    (hsr : 0 < sampleRate) (hnc : 0 < numChannels) :
    ∃ out, encodeWAV (Uint8Array.ofBytes samples) sampleRate numChannels = .ok out :=
  ⟨_, encodeWAV_ofBytes samples sampleRate numChannels⟩

theorem C6_total_witness :
    ∃ out, encodeWAV (Uint8Array.ofBytes [255]) 24000 1 = .ok out :=
  C6_total [255] 24000 1 (by decide) (by decide)

/-- C7: the payload copy of `encodeWAV` reads the whole backing buffer of the
`samples` view.  When the view spans its entire backing buffer (byte offset 0
and view length equal to the buffer length) the payload is copied verbatim;
for a view that is a proper slice of a larger buffer, the copy loop attempts
a `DataView` write at an offset past `44 + samples.length - 1`, which throws
a `RangeError` instead of returning a container. -/
theorem C7_backing_buffer (samples : Uint8Array) (sampleRate numChannels : Nat)
    (hinv : samples.byteOffset + samples.length ≤ samples.buffer.length)
    (hb : ∀ b ∈ samples.buffer, b < 256) :
    (samples.byteOffset = 0 ∧ samples.length = samples.buffer.length →
      ∃ out, encodeWAV samples sampleRate numChannels = .ok out ∧
        out.drop 44 = samples.toBytes) ∧
    (samples.byteOffset ≠ 0 ∨ samples.length ≠ samples.buffer.length →
      encodeWAV samples sampleRate numChannels = .error "RangeError") := by
  constructor
  · rintro ⟨h0, hl⟩
    rw [encodeWAV_eq]
    rw [writeLoop_at samples.buffer (wavHeader samples.length sampleRate numChannels)
      (List.replicate samples.length 0) 44 (wavHeader_length _ _ _)
      (by simp only [List.length_replicate]; omega)]
    refine ⟨_, rfl, ?_⟩
    rw [map_mod_eq_self samples.buffer hb]
    have hz : samples.length - samples.buffer.length = 0 := by omega
    simp only [List.drop_replicate, hz, List.replicate_zero, List.append_nil]
    rw [drop44_payload]
    simp [Uint8Array.toBytes, h0, hl]
  · intro hslice
    rw [encodeWAV_eq]
    exact writeLoop_oob samples.buffer _ _ 44 (wavHeader_length _ _ _)
      (by simp only [List.length_replicate]; omega)

theorem C7_backing_buffer_witness :
    encodeWAV ⟨[7, 8, 9], 1, 2⟩ 24000 1 = .error "RangeError" :=
  (C7_backing_buffer ⟨[7, 8, 9], 1, 2⟩ 24000 1 (by decide) (by decide)).2
    (Or.inl (by decide))

/-- C8: `encodeWAV` applied to an empty samples sequence with sample rate
24000 and channel count 1 returns a byte sequence of length exactly 44
(header only) whose Subchunk2Size field (bytes 40-43, little-endian uint32)
equals 0. -/
theorem C8_empty_input :
    ∃ out, encodeWAV (Uint8Array.ofBytes []) 24000 1 = .ok out ∧
      out.length = 44 ∧ readUint32LE out 40 = 0 :=
  ⟨_, encodeWAV_ofBytes [] 24000 1, by decide, by decide⟩

/-- C9: header integer fields are stored with fixed-width wrap-around rather
than checked: NumChannels and BlockAlign are stored modulo 2^16 and
ChunkSize, SampleRate, ByteRate and Subchunk2Size modulo 2^32; in particular
for `numChannels = 65536` the encoder still succeeds, no error is raised, and
the stored NumChannels field no longer equals the unwrapped input. -/
theorem C9_wraparound (samples : Buffer) (sampleRate numChannels : Nat) :
    (∃ out, encodeWAV (Uint8Array.ofBytes samples) sampleRate numChannels = .ok out ∧
      readUint32LE out 4 = (36 + samples.length) % 4294967296 ∧
      readUint16LE out 22 = numChannels % 65536 ∧
      readUint32LE out 24 = sampleRate % 4294967296 ∧
      readUint32LE out 28 = sampleRate * numChannels * 2 % 4294967296 ∧
      readUint16LE out 32 = numChannels * 2 % 65536 ∧
      readUint32LE out 40 = samples.length % 4294967296) ∧
    (∃ out, encodeWAV (Uint8Array.ofBytes []) 1 65536 = .ok out ∧
      readUint16LE out 22 ≠ 65536) := by
  constructor
  · exact ⟨_, encodeWAV_ofBytes samples sampleRate numChannels,
      read32_chunkSize _ _ _ _, read16_numChannels _ _ _ _,
      read32_sampleRate _ _ _ _, read32_byteRate _ _ _ _,
      read16_blockAlign _ _ _ _, read32_dataSize _ _ _ _⟩
  · exact ⟨_, encodeWAV_ofBytes [] 1 65536, by decide⟩

/-- C10: for every fixed triple of arguments, two invocations of `encodeWAV`
yield byte-identical output: the result depends only on the contents of the
arguments, with no hidden state. -/
theorem C10_deterministic (s1 s2 : Uint8Array) (sampleRate numChannels : Nat)
    (hbuf : s1.buffer = s2.buffer) (hoff : s1.byteOffset = s2.byteOffset)
    (hlen : s1.length = s2.length) :
    encodeWAV s1 sampleRate numChannels = encodeWAV s2 sampleRate numChannels := by
  have h : s1 = s2 := by
    cases s1; cases s2; simp_all
  rw [h]

theorem C10_deterministic_witness :
    encodeWAV ⟨[1, 2], 0, 2⟩ 24000 1 = encodeWAV ⟨[1, 2], 0, 2⟩ 24000 1 :=
  C10_deterministic ⟨[1, 2], 0, 2⟩ ⟨[1, 2], 0, 2⟩ 24000 1 rfl rfl rfl
